import Mathlib

/-
Verification of the iowa sample-downloader against its specification.

The Go program (main.go) selects seed index-page URLs from a static
catalog (era -> section -> seed URLs), scrapes each page for audio-file
links, and downloads them through a concurrent fetcher/writer pipeline.
This file gives a shallow embedding of those functions and proves the
spec's testable properties about them.

Modelling conventions:
- Go strings are Lean `String`; byte-level operations (`strings.HasSuffix`,
  `strings.HasPrefix`, slicing) act on `String.data` since every string
  involved is ASCII.
- Go maps are association lists; lookup is `List.lookup`.  Go map
  iteration order is unspecified, so every statement about the flattened
  output is order-independent (membership, counts, lengths).
- Fallible Go functions returning `(T, error)` become `Except String T`.
- The concurrent fetch pipeline (goroutines, errgroup, unbuffered
  channel) becomes a small-step transition relation on an explicit
  pipeline state; see `FetchStep` below.
-/

namespace Iowa

/-! ## String helpers (models of Go `strings` functions) -/

/-- Model of Go `strings.HasSuffix s post`: `post` is a suffix of `s`.
Byte-wise suffix test, done on the character list. -/
def hasSuffix (s post : String) : Bool :=
  List.isSuffixOf post.data s.data

/-- Model of Go `strings.HasPrefix`, specialised to the one use in the
source: does the string start with the three characters `../`? -/
def hasDotDotSlash (s : String) : Bool :=
  List.isPrefixOf "../".data s.data

/-- Model of the Go slice expression `s[3:]` (all bytes from index 3),
used only after a `../` prefix test, where 3 bytes = 3 characters. -/
def dropThree (s : String) : String :=
  String.mk (s.data.drop 3)

/-! ## IsAudioFile (main.go line 361) -/

/-- Source `IsAudioFile`: returns true if the provided string ends with
`.aif` or `.aiff` or `.wav` (exact, case-sensitive). -/
def IsAudioFile (s : String) : Bool :=
  hasSuffix s ".aif" || hasSuffix s ".aiff" || hasSuffix s ".wav"

/-! ## The catalog (the `Samples` map built by `NewConfig`, main.go lines 237-333) -/

/-- Sections of one era: section name -> seed URLs. -/
abbrev Sections := List (String × List String)

/-- Catalog: era -> sections. -/
abbrev Catalog := List (String × Sections)

/-- The `pre-2012` entry of the `Samples` map in `NewConfig`. -/
def pre2012 : Sections :=
  [("woodwind",
    ["http://theremin.music.uiowa.edu/MISflute.html",
     "http://theremin.music.uiowa.edu/MISaltoflute.html",
     "http://theremin.music.uiowa.edu/MISbassflute.html",
     "http://theremin.music.uiowa.edu/MISoboe.html",
     "http://theremin.music.uiowa.edu/MISEbclarinet.html",
     "http://theremin.music.uiowa.edu/MISBbclarinet.html",
     "http://theremin.music.uiowa.edu/MISbassclarinet.html",
     "http://theremin.music.uiowa.edu/MISbassoon.html",
     "http://theremin.music.uiowa.edu/MISsopranosaxophone.html",
     "http://theremin.music.uiowa.edu/MISaltosaxophone.html"]),
   ("brass",
    ["http://theremin.music.uiowa.edu/MISFrenchhorn.html",
     "http://theremin.music.uiowa.edu/MISBbtrumpet.html",
     "http://theremin.music.uiowa.edu/MIStenortrombone.html",
     "http://theremin.music.uiowa.edu/MISbasstrombone.html",
     "http://theremin.music.uiowa.edu/MIStuba.html"]),
   ("strings",
    ["http://theremin.music.uiowa.edu/MISviolin.html",
     "http://theremin.music.uiowa.edu/MISviola.html",
     "http://theremin.music.uiowa.edu/MIScello.html",
     "http://theremin.music.uiowa.edu/MISdoublebass.html",
     "http://theremin.music.uiowa.edu/MISviolin2012.html",
     "http://theremin.music.uiowa.edu/MISviola2012.html",
     "http://theremin.music.uiowa.edu/MIScello2012.html",
     "http://theremin.music.uiowa.edu/MISdoublebass2012.html"]),
   ("percussion",
    ["http://theremin.music.uiowa.edu/Mismarimba.html",
     "http://theremin.music.uiowa.edu/MISxylophone.html",
     "http://theremin.music.uiowa.edu/Misvibraphone.html",
     "http://theremin.music.uiowa.edu/MISbells.html",
     "http://theremin.music.uiowa.edu/MIScrotales.html",
     "http://theremin.music.uiowa.edu/MISgongtamtams.html",
     "http://theremin.music.uiowa.edu/MIShandpercussion.html",
     "http://theremin.music.uiowa.edu/MIStambourines.html"]),
   ("piano/other",
    ["http://theremin.music.uiowa.edu/MISpiano.html",
     "http://theremin.music.uiowa.edu/MISballoonpop.html",
     "http://theremin.music.uiowa.edu/MISguitar.html"]),
   ("foundobjects",
    ["http://theremin.music.uiowa.edu/MISfoundobjects1.html"])]

/-- The `post-2012` entry of the `Samples` map in `NewConfig`. -/
def post2012 : Sections :=
  [("woodwinds",
    ["http://theremin.music.uiowa.edu/MIS-Pitches-2012/MISFlute2012.html",
     "http://theremin.music.uiowa.edu/MIS-Pitches-2012/MISaltoflute2012.html",
     "http://theremin.music.uiowa.edu/MIS-Pitches-2012/MISBassFlute2012.html",
     "http://theremin.music.uiowa.edu/MIS-Pitches-2012/MISOboe2012.html",
     "http://theremin.music.uiowa.edu/MIS-Pitches-2012/MISEbClarinet2012.html",
     "http://theremin.music.uiowa.edu/MIS-Pitches-2012/MISBbClarinet2012.html",
     "http://theremin.music.uiowa.edu/MIS-Pitches-2012/MISBbBassClarinet2012.html",
     "http://theremin.music.uiowa.edu/MIS-Pitches-2012/MISBassoon2012.html",
     "http://theremin.music.uiowa.edu/MIS-Pitches-2012/MISBbSopranoSaxophone2012.html",
     "http://theremin.music.uiowa.edu/MIS-Pitches-2012/MISEbAltoSaxophone2012.html"]),
   ("brass",
    ["http://theremin.music.uiowa.edu/MIS-Pitches-2012/MISHorn2012.html",
     "http://theremin.music.uiowa.edu/MIS-Pitches-2012/MISBbTrumpet2012.html",
     "http://theremin.music.uiowa.edu/MIS-Pitches-2012/MISTenorTrombone2012.html",
     "http://theremin.music.uiowa.edu/MIS-Pitches-2012/MISBassTrombone2012.html",
     "http://theremin.music.uiowa.edu/MIS-Pitches-2012/MISTuba2012.html",
     "http://theremin.music.uiowa.edu/MIS-Pitches-2012/MISBbBassClarinet2012.html",
     "http://theremin.music.uiowa.edu/MIS-Pitches-2012/MISBassoon2012.html",
     "http://theremin.music.uiowa.edu/MIS-Pitches-2012/MISBbSopranoSaxophone2012.html",
     "http://theremin.music.uiowa.edu/MIS-Pitches-2012/MISEbAltoSaxophone2012.html"]),
   ("strings",
    ["http://theremin.music.uiowa.edu/MIS-Pitches-2012/MISViolin2012.html",
     "http://theremin.music.uiowa.edu/MIS-Pitches-2012/MISViola2012.html",
     "http://theremin.music.uiowa.edu/MIS-Pitches-2012/MISCello2012.html",
     "http://theremin.music.uiowa.edu/MIS-Pitches-2012/MISDoubleBass2012.html"]),
   ("percussion",
    ["http://theremin.music.uiowa.edu/MIS-Pitches-2012/MISMarimba2012.html",
     "http://theremin.music.uiowa.edu/MIS-Pitches-2012/MISxylophone2012.html",
     "http://theremin.music.uiowa.edu/MIS-Pitches-2012/MISVibraphone2012.html",
     "http://theremin.music.uiowa.edu/MIS-Pitches-2012/MISBells2012.html",
     "http://theremin.music.uiowa.edu/MIS-Pitches-2012/MISCrotales2012.html",
     "http://theremin.music.uiowa.edu/MIS-Pitches-2012/MISCymbals2012.html",
     "http://theremin.music.uiowa.edu/MIS-Pitches-2012/MISGongsTamTams2012.html",
     "http://theremin.music.uiowa.edu/MIS-Pitches-2012/MISHandPercussion2012.html",
     "http://theremin.music.uiowa.edu/MIS-Pitches-2012/MISTambourines2012.html"]),
   ("foundobjects",
    ["http://theremin.music.uiowa.edu/MISfoundobjects2.html"])]

/-- The full `Samples` catalog (main.go lines 237-333). -/
def iowaCatalog : Catalog :=
  [("pre-2012", pre2012), ("post-2012", post2012)]

/-! ## App.urls (main.go lines 193-220): the URL Selector / Select -/

/-- Source `App.urls`: selects seed URLs from the catalog by era and
section.  Mirrors the Go control flow exactly: the era filter applies
only when era is not `all`; the section filter applies only when the
section string is non-empty; map lookups become association-list
lookups; the successive `append` calls become `flatMap`. -/
def urls (samples : Catalog) (era sec : String) : Except String (List String) :=
  if era ≠ "all" then
    match List.lookup era samples with
    | none => .error ("unsupported era: " ++ era)
    | some sections =>
      if 0 < sec.length then
        match List.lookup sec sections with
        | none => .error ("unsupported section: " ++ sec)
        | some us => .ok us
      else
        .ok (sections.flatMap (fun p => p.2))
  else
    .ok (samples.flatMap (fun e => e.2.flatMap (fun p => p.2)))

/-- The flattening of the whole catalog, as produced by the `era = all`
branch of `App.urls`. -/
def catalogAll (samples : Catalog) : List String :=
  samples.flatMap (fun e => e.2.flatMap (fun p => p.2))

/-! ## NewConfig validation (main.go lines 339-351) -/

/-- The era/section validation performed by `NewConfig` after flag
parsing (main.go lines 339-351), with the parsed flag values as
arguments.  Returns the same errors `NewConfig` returns. -/
def newConfigValidate (samples : Catalog) (era sec : String) : Except String Unit :=
  if era ≠ "all" then
    match List.lookup era samples with
    | none => .error ("unsupported era: " ++ era)
    | some sections =>
      if 0 < sec.length then
        match List.lookup sec sections with
        | none => .error ("unsupported section: " ++ sec)
        | some _ => .ok ()
      else
        .ok ()
  else
    .ok ()

/-! ## App.scrape (main.go lines 152-191): the Page Scraper

The network GET, the HTML parse and the seed-URL parse are external
effects; they enter the model as explicit outcomes.  The pure link
extraction over the parsed anchors is translated directly. -/

/-- One attribute of an HTML element (the html package's `Attribute`,
restricted to the key and value the source reads). -/
structure Attr where
  key : String
  val : String
deriving DecidableEq

/-- Outcome of `html.Parse` on the response body: either a parse
failure, or a node tree from which `scrape.FindAll(root, ByTag(atom.A))`
yields the listed anchors, each with its attribute list. -/
inductive HtmlBody where
  | malformed
  | anchors (links : List (List Attr))

/-- Outcome of the `http.Get(url)` call in `App.scrape`: a transport
error, or a response with a status code and a body.  (`http.Get` does
not fail on non-2xx statuses; the status is part of the response.) -/
inductive GetResult where
  | transportError (msg : String)
  | response (status : Nat) (body : HtmlBody)

/-- Resolution of one kept href value (main.go lines 176-181): strip a
leading `../` (exactly three characters, once), then concatenate
`http://` + host + `/` + value. -/
def resolveHref (host val : String) : String :=
  let v := if hasDotDotSlash val then dropThree val else val
  "http://" ++ host ++ "/" ++ v

/-- Contribution of one attribute to the download set (main.go lines
172-181): kept only if the key is `href` and `IsAudioFile` accepts the
value. -/
def attrAudioLink (host : String) (a : Attr) : Option String :=
  if a.key == "href" && IsAudioFile a.val then some (resolveHref host a.val) else none

/-- The pure link extraction of `App.scrape` (main.go lines 167-190):
every anchor's attributes are scanned, kept hrefs are resolved, and the
results are deduplicated through the map `dm` (set semantics; the map's
iteration order is unspecified, so only the membership of the result is
meaningful). -/
def scrapeLinks (host : String) (links : List (List Attr)) : List String :=
  (links.flatMap (fun link => link.filterMap (fun a => attrAudioLink host a))).dedup

/-- Source `App.scrape` for one seed URL, with the external outcomes
explicit: `r` is the result of `http.Get(url)`, and `hostParse` is the
host component from `stdurl.Parse(url)` (`none` = parse error).  The
checks appear in source order: GET error, HTML parse, URL parse, link
extraction.  Note the response status is never inspected. -/
def scrape (url : String) (hostParse : Option String) (r : GetResult) :
    Except String (List String) :=
  match r with
  | .transportError msg => .error ("fetching " ++ url ++ ": " ++ msg)
  | .response _ body =>
    match body with
    | .malformed => .error "parsing html"
    | .anchors links =>
      match hostParse with
      | none => .error "parsing url"
      | some host => .ok (scrapeLinks host links)

/-! ## LocalPath derivation (main.go lines 86-99, in `contentWriter`)

The writer derives the target path as `u.Path[1:]` where `u` is the
parse of the download URL.  For the scheme-and-host URLs this program
builds (`http://host/rel`, no query or fragment), `net/url.Parse`
assigns `Path` = everything from the first `/` after the authority;
`urlPath` models that, and `localPath` models `u.Path[1:]`. -/

/-- Path component assigned by `net/url.Parse` to a query-free
`http://host/...` URL: drop the 7 characters of `http://`, then drop the
host (everything before the first `/`). -/
def urlPath (u : String) : List Char :=
  (u.data.drop 7).dropWhile (fun c => c != '/')

/-- The Go expression `u.Path[1:]`: the URL path without its leading
separator; this is the relative filesystem path the writer creates. -/
def localPath (u : String) : List Char :=
  (urlPath u).drop 1

/-! ## The Fetch-and-Store Pipeline (main.go lines 58-108 and 137-150)

`App.fetch` spawns, per download URL, one fetcher goroutine
(`contentFetcher`) and one writer goroutine (`contentWriter`) in a
single errgroup, all sharing one unbuffered channel `dc` and the
errgroup's derived context.  The model is a small-step transition
relation: each goroutine is in one of its suspension phases, the
unbuffered channel is a rendezvous, the errgroup records the first
error and cancels the shared context when it occurs, and a `panic`
freezes the whole run. -/

/-- Oracle for the `http.Get(download)` call inside `contentFetcher`:
either a transport error (which the source passes to `panic`) or a
response with its status code and status text. -/
inductive FGetOutcome where
  | transportError (msg : String)
  | response (code : Nat) (statusText : String)
deriving DecidableEq

/-- Oracle for the writer's filesystem work on one received download
(URL re-parse, MkdirAll, Create, Copy): `none` = success, `some msg` =
the first error, already wrapped. -/
inductive FWriteOutcome where
  | success
  | failure (msg : String)
deriving DecidableEq

/-- One download URL together with the outcomes its GET and its write
would have. -/
structure ItemSpec where
  url : String
  get : FGetOutcome
  write : FWriteOutcome
deriving DecidableEq

/-- Result of the GET phase of `contentFetcher` (main.go lines 62-68):
a transport error panics; a status >= 300 (`http.StatusMultipleChoices`)
returns the error `download + ": " + resp.Status`; otherwise the fetcher
proceeds to the channel send. -/
inductive FetcherGetResult where
  | panicked (msg : String)
  | errorReturn (msg : String)
  | proceedToSend
deriving DecidableEq

/-- The GET phase of `contentFetcher`, translated from main.go lines
62-68. -/
def contentFetcherGet (download : String) (r : FGetOutcome) : FetcherGetResult :=
  match r with
  | .transportError msg => .panicked msg
  | .response code text =>
    if 300 ≤ code then .errorReturn (download ++ ": " ++ text) else .proceedToSend

/-- The writing phase of `contentWriter` after receiving an item
(main.go lines 84-104): `none` = returned nil, `some msg` = returned
that error. -/
def contentWriterWrite (it : ItemSpec) : Option String :=
  match it.write with
  | .success => none
  | .failure msg => some msg

/-- The errgroup's `errOnce`: only the first reported error is kept. -/
def errOnce (cur : Option String) (msg : String) : Option String :=
  match cur with
  | none => some msg
  | some m => some m

/-- State of one `App.fetch` run.  Fetchers are in phase `fstart`
(before the GET), `fready` (holding a response body at the channel
send), or exited; writers are waiting at the channel receive (`wwait`,
a count — waiting writers are indistinguishable), writing a received
item (`wwriting`), or exited.  Exit counters are split by exit path,
`cancelled` is the errgroup context, `firstErr` the errgroup's stored
error, and `panicked` records a `panic` having killed the process. -/
structure PState where
  fstart : Multiset ItemSpec
  fready : Multiset ItemSpec
  fdoneSent : Nat
  fdoneCancel : Nat
  fdoneErr : Nat
  wwait : Nat
  wwriting : Multiset ItemSpec
  wdoneOk : Nat
  wdoneCancel : Nat
  wdoneErr : Nat
  cancelled : Bool
  firstErr : Option String
  panicked : Bool

/-- The interleaving semantics of one `App.fetch` run.  Each constructor
is one atomic step of one goroutine; `select` nondeterminism (a
cancelled context and a ready channel partner are both enabled) is the
nondeterminism of the relation.  A `panic` stops the whole process, so
every step requires `panicked = false`. -/
inductive FetchStep : PState → PState → Prop where
  | fetchGetPanic (s : PState) (it : ItemSpec) (msg : String) :
      s.panicked = false → it ∈ s.fstart →
      contentFetcherGet it.url it.get = .panicked msg →
      FetchStep s { s with panicked := true }
  | fetchGetErr (s : PState) (it : ItemSpec) (msg : String) :
      s.panicked = false → it ∈ s.fstart →
      contentFetcherGet it.url it.get = .errorReturn msg →
      FetchStep s { s with fstart := s.fstart.erase it, fdoneErr := s.fdoneErr + 1,
                           cancelled := true, firstErr := errOnce s.firstErr msg }
  | fetchGetOk (s : PState) (it : ItemSpec) :
      s.panicked = false → it ∈ s.fstart →
      contentFetcherGet it.url it.get = .proceedToSend →
      FetchStep s { s with fstart := s.fstart.erase it, fready := it ::ₘ s.fready }
  | fetchSendCancelled (s : PState) (it : ItemSpec) :
      s.panicked = false → it ∈ s.fready → s.cancelled = true →
      FetchStep s { s with fready := s.fready.erase it, fdoneCancel := s.fdoneCancel + 1 }
  | handoff (s : PState) (it : ItemSpec) :
      s.panicked = false → it ∈ s.fready → 0 < s.wwait →
      FetchStep s { s with fready := s.fready.erase it, fdoneSent := s.fdoneSent + 1,
                           wwait := s.wwait - 1, wwriting := it ::ₘ s.wwriting }
  | writerRecvCancelled (s : PState) :
      s.panicked = false → 0 < s.wwait → s.cancelled = true →
      FetchStep s { s with wwait := s.wwait - 1, wdoneCancel := s.wdoneCancel + 1 }
  | writerFinishOk (s : PState) (it : ItemSpec) :
      s.panicked = false → it ∈ s.wwriting → contentWriterWrite it = none →
      FetchStep s { s with wwriting := s.wwriting.erase it, wdoneOk := s.wdoneOk + 1 }
  | writerFinishErr (s : PState) (it : ItemSpec) (msg : String) :
      s.panicked = false → it ∈ s.wwriting → contentWriterWrite it = some msg →
      FetchStep s { s with wwriting := s.wwriting.erase it, wdoneErr := s.wdoneErr + 1,
                           cancelled := true, firstErr := errOnce s.firstErr msg }

/-- The state `App.fetch` starts in: one fetcher per download at its GET
and one waiting writer per download (the loop at main.go lines 142-148
spawns both per URL), an open context and no recorded error. -/
def fetchInit (items : List ItemSpec) : PState :=
  { fstart := (items : Multiset ItemSpec), fready := 0, fdoneSent := 0, fdoneCancel := 0,
    fdoneErr := 0, wwait := items.length, wwriting := 0, wdoneOk := 0, wdoneCancel := 0,
    wdoneErr := 0, cancelled := false, firstErr := none, panicked := false }

/-- Reachability of a pipeline state from the start of a run. -/
def FetchReachable (items : List ItemSpec) (s : PState) : Prop :=
  Relation.ReflTransGen FetchStep (fetchInit items) s

/-- All goroutines have returned: `g.Wait()` can return. -/
def AllExited (s : PState) : Prop :=
  s.fstart = 0 ∧ s.fready = 0 ∧ s.wwait = 0 ∧ s.wwriting = 0

/-- Termination measure: every step strictly decreases it. -/
def pmeasure (s : PState) : Nat :=
  2 * s.fstart.card + s.fready.card + 2 * s.wwait + s.wwriting.card +
    (if s.panicked then 0 else 1)

/-! ## Helper lemmas -/

/-- A successful association-list lookup exhibits its key/value pair as
a member of the list. -/
theorem lookup_mem {α β : Type} [BEq α] [LawfulBEq α] {a : α} {b : β} :
    ∀ {l : List (α × β)}, List.lookup a l = some b → (a, b) ∈ l := by
  intro l
  induction l with
  | nil => intro h; simp [List.lookup] at h
  | cons p t ih =>
    obtain ⟨k, v⟩ := p
    intro h
    rw [List.lookup] at h
    split at h
    · next heq =>
      have h1 : a = k := eq_of_beq heq
      cases h
      simp [h1]
    · exact List.mem_cons_of_mem _ (ih h)

/-- Erasing a present element lowers the cardinality by exactly one. -/
theorem card_erase_succ {α : Type} [DecidableEq α] {s : Multiset α} {a : α} (h : a ∈ s) :
    (s.erase a).card + 1 = s.card := by
  conv_rhs => rw [← Multiset.cons_erase h]
  rw [Multiset.card_cons]

/-- The errgroup error slot is occupied after any report. -/
theorem errOnce_isSome (cur : Option String) (msg : String) :
    (errOnce cur msg).isSome = true := by
  cases cur <;> rfl

/-- The errgroup error slot is never empty after a report. -/
theorem errOnce_ne_none (cur : Option String) (msg : String) :
    errOnce cur msg ≠ none := by
  cases cur <;> simp [errOnce]

/-! ## Pipeline invariant -/

/-- Run invariant of `App.fetch`, for a run over `n` downloads:
goroutine conservation for fetchers and for writers, the handoff balance
(every delivered item is with some writer or written), and the errgroup
bookkeeping (the context is cancelled exactly when an error is stored,
errors are stored exactly when some goroutine returned one, and
cancellation exits presuppose cancellation). -/
def FetchInv (n : Nat) (s : PState) : Prop :=
  s.fstart.card + s.fready.card + s.fdoneSent + s.fdoneCancel + s.fdoneErr = n ∧
  s.wwait + s.wwriting.card + s.wdoneOk + s.wdoneCancel + s.wdoneErr = n ∧
  s.fdoneSent = s.wwriting.card + s.wdoneOk + s.wdoneErr ∧
  s.cancelled = s.firstErr.isSome ∧
  (s.firstErr = none → s.fdoneErr = 0 ∧ s.wdoneErr = 0) ∧
  (s.firstErr.isSome = true → 1 ≤ s.fdoneErr + s.wdoneErr) ∧
  (s.cancelled = false → s.fdoneCancel = 0 ∧ s.wdoneCancel = 0)

/-- The initial pipeline state satisfies the invariant. -/
theorem fetchInv_init (items : List ItemSpec) : FetchInv items.length (fetchInit items) := by
  refine ⟨?_, ?_, ?_, ?_, ?_, ?_, ?_⟩ <;> simp [fetchInit]

/-- Every pipeline step preserves the invariant. -/
theorem fetchInv_step {n : Nat} {s t : PState} (hinv : FetchInv n s) (hstep : FetchStep s t) :
    FetchInv n t := by
  obtain ⟨c1, c2, c3, c4, c5, c6, c7⟩ := hinv
  cases hstep with
  | fetchGetPanic it msg hp hm hg =>
    exact ⟨c1, c2, c3, c4, c5, c6, c7⟩
  | fetchGetErr it msg hp hm hg =>
    have hc := card_erase_succ hm
    unfold FetchInv
    dsimp only
    refine ⟨by omega, c2, c3, by simp [errOnce_isSome], ?_, ?_, ?_⟩
    · intro h; exact absurd h (errOnce_ne_none _ _)
    · intro _; omega
    · intro h; cases h
  | fetchGetOk it hp hm hg =>
    have hc := card_erase_succ hm
    unfold FetchInv
    dsimp only
    refine ⟨?_, c2, c3, c4, c5, c6, c7⟩
    simp only [Multiset.card_cons]
    omega
  | fetchSendCancelled it hp hm hcan =>
    have hc := card_erase_succ hm
    unfold FetchInv
    dsimp only
    refine ⟨by omega, c2, c3, c4, c5, c6, ?_⟩
    intro h; rw [hcan] at h; cases h
  | handoff it hp hm hw =>
    have hc := card_erase_succ hm
    unfold FetchInv
    dsimp only
    refine ⟨by omega, ?_, ?_, c4, c5, c6, c7⟩
    · simp only [Multiset.card_cons]; omega
    · simp only [Multiset.card_cons]; omega
  | writerRecvCancelled hp hw hcan =>
    unfold FetchInv
    dsimp only
    refine ⟨c1, by omega, c3, c4, c5, c6, ?_⟩
    intro h; rw [hcan] at h; cases h
  | writerFinishOk it hp hm hwr =>
    have hc := card_erase_succ hm
    unfold FetchInv
    dsimp only
    exact ⟨c1, by omega, by omega, c4, c5, c6, c7⟩
  | writerFinishErr it msg hp hm hwr =>
    have hc := card_erase_succ hm
    unfold FetchInv
    dsimp only
    refine ⟨c1, by omega, by omega, by simp [errOnce_isSome], ?_, ?_, ?_⟩
    · intro h; exact absurd h (errOnce_ne_none _ _)
    · intro _; omega
    · intro h; cases h

/-- Every reachable pipeline state satisfies the invariant. -/
theorem fetchInv_reachable {items : List ItemSpec} {s : PState}
    (h : FetchReachable items s) : FetchInv items.length s := by
  induction h with
  | refl => exact fetchInv_init items
  | tail _ h2 ih => exact fetchInv_step ih h2

/-- Deadlock freedom: from an invariant-satisfying, non-panicked state
in which some goroutine is still running, some step is enabled. -/
theorem fetch_progress {n : Nat} {s : PState} (hinv : FetchInv n s)
    (hp : s.panicked = false) (hne : ¬ AllExited s) : ∃ t, FetchStep s t := by
  obtain ⟨c1, c2, c3, c4, c5, c6, c7⟩ := hinv
  by_cases h1 : s.fstart = 0
  · by_cases h2 : s.wwriting = 0
    · by_cases h3 : s.fready = 0
      · have hw : 0 < s.wwait := by
          rcases Nat.eq_zero_or_pos s.wwait with h | h
          · exact absurd ⟨h1, h3, h, h2⟩ hne
          · exact h
        cases hcan : s.cancelled with
        | true => exact ⟨_, FetchStep.writerRecvCancelled s hp hw hcan⟩
        | false =>
          exfalso
          have hfe : s.firstErr = none := by
            cases hfe2 : s.firstErr with
            | none => rfl
            | some m => rw [hfe2, hcan] at c4; cases c4
          obtain ⟨e5a, e5b⟩ := c5 hfe
          obtain ⟨e7a, e7b⟩ := c7 hcan
          have e1 : s.fstart.card = 0 := by rw [h1]; rfl
          have e3 : s.fready.card = 0 := by rw [h3]; rfl
          have e2 : s.wwriting.card = 0 := by rw [h2]; rfl
          omega
      · obtain ⟨it, hit⟩ := Multiset.exists_mem_of_ne_zero h3
        cases hcan : s.cancelled with
        | true => exact ⟨_, FetchStep.fetchSendCancelled s it hp hit hcan⟩
        | false =>
          have hfe : s.firstErr = none := by
            cases hfe2 : s.firstErr with
            | none => rfl
            | some m => rw [hfe2, hcan] at c4; cases c4
          obtain ⟨e5a, e5b⟩ := c5 hfe
          obtain ⟨e7a, e7b⟩ := c7 hcan
          have e1 : s.fstart.card = 0 := by rw [h1]; rfl
          have e2 : s.wwriting.card = 0 := by rw [h2]; rfl
          have e3 : 0 < s.fready.card := Multiset.card_pos.mpr h3
          have hw : 0 < s.wwait := by omega
          exact ⟨_, FetchStep.handoff s it hp hit hw⟩
    · obtain ⟨it, hit⟩ := Multiset.exists_mem_of_ne_zero h2
      cases hwr : contentWriterWrite it with
      | none => exact ⟨_, FetchStep.writerFinishOk s it hp hit hwr⟩
      | some m => exact ⟨_, FetchStep.writerFinishErr s it m hp hit hwr⟩
  · obtain ⟨it, hit⟩ := Multiset.exists_mem_of_ne_zero h1
    cases hg : contentFetcherGet it.url it.get with
    | panicked m => exact ⟨_, FetchStep.fetchGetPanic s it m hp hit hg⟩
    | errorReturn m => exact ⟨_, FetchStep.fetchGetErr s it m hp hit hg⟩
    | proceedToSend => exact ⟨_, FetchStep.fetchGetOk s it hp hit hg⟩

/-- Every pipeline step strictly decreases the measure, so every run
terminates. -/
theorem fetch_step_measure {s t : PState} (h : FetchStep s t) : pmeasure t < pmeasure s := by
  cases h with
  | fetchGetPanic it msg hp hm hg =>
    simp only [pmeasure]
    simp only [hp]
    simp
  | fetchGetErr it msg hp hm hg =>
    have hc := card_erase_succ hm
    simp only [pmeasure]
    simp only [hp]
    simp only [if_neg Bool.false_ne_true]
    omega
  | fetchGetOk it hp hm hg =>
    have hc := card_erase_succ hm
    simp only [pmeasure]
    simp only [hp, Multiset.card_cons]
    simp only [if_neg Bool.false_ne_true]
    omega
  | fetchSendCancelled it hp hm hcan =>
    have hc := card_erase_succ hm
    simp only [pmeasure]
    simp only [hp]
    simp only [if_neg Bool.false_ne_true]
    omega
  | handoff it hp hm hw =>
    have hc := card_erase_succ hm
    simp only [pmeasure]
    simp only [hp, Multiset.card_cons]
    simp only [if_neg Bool.false_ne_true]
    omega
  | writerRecvCancelled hp hw hcan =>
    simp only [pmeasure]
    simp only [hp]
    simp only [if_neg Bool.false_ne_true]
    omega
  | writerFinishOk it hp hm hwr =>
    have hc := card_erase_succ hm
    simp only [pmeasure]
    simp only [hp]
    simp only [if_neg Bool.false_ne_true]
    omega
  | writerFinishErr it msg hp hm hwr =>
    have hc := card_erase_succ hm
    simp only [pmeasure]
    simp only [hp]
    simp only [if_neg Bool.false_ne_true]
    omega

/-- Characterisation of the kept-attribute test of `App.scrape`: an
attribute contributes a link exactly when its key is `href`, its value
has an audio suffix, and the link is the resolved value. -/
theorem attrAudioLink_eq_some (host : String) (a : Attr) (u : String) :
    attrAudioLink host a = some u ↔
      a.key = "href" ∧ IsAudioFile a.val = true ∧ u = resolveHref host a.val := by
  unfold attrAudioLink
  by_cases h1 : a.key = "href"
  · by_cases h2 : IsAudioFile a.val = true
    · simp [h1, h2, eq_comm]
    · simp [h1, h2]
  · simp [h1]

/-- Claim C3: for every parsed HTML page, the scrape returns exactly the
set of resolved URLs built from anchor hrefs with an `.aif`, `.aiff` or
`.wav` suffix (case-sensitive; leading `../` stripped; resolved against
`http://` + host), deduplicated by full resolved URL (so identical
hrefs yield one link), and other suffixes are excluded. -/
theorem scrape_links_exact (url host : String) (status : Nat) (links : List (List Attr)) :
    scrape url (some host) (.response status (.anchors links)) = .ok (scrapeLinks host links) ∧
    (∀ u, u ∈ scrapeLinks host links ↔
      ∃ link, link ∈ links ∧ ∃ a, a ∈ link ∧ a.key = "href" ∧ IsAudioFile a.val = true ∧
        u = resolveHref host a.val) ∧
    (scrapeLinks host links).Nodup := by
  refine ⟨rfl, ?_, List.nodup_dedup _⟩
  intro u
  unfold scrapeLinks
  rw [List.mem_dedup, List.mem_flatMap]
  constructor
  · rintro ⟨link, hl, hm⟩
    rw [List.mem_filterMap] at hm
    obtain ⟨a, ha, he⟩ := hm
    rw [attrAudioLink_eq_some] at he
    exact ⟨link, hl, a, ha, he⟩
  · rintro ⟨link, hl, a, ha, h1, h2, h3⟩
    refine ⟨link, hl, ?_⟩
    rw [List.mem_filterMap]
    exact ⟨a, ha, (attrAudioLink_eq_some host a u).mpr ⟨h1, h2, h3⟩⟩

/-- Claim C3 example from the spec: a page with hrefs `a.wav`,
`../b.aiff`, `c.txt` and `d.AIF` yields exactly the two resolved audio
links, with the `../` stripped and the non-audio and uppercase suffixes
excluded. -/
theorem scrape_links_spec_example :
    (scrapeLinks "theremin.music.uiowa.edu"
      [[⟨"href", "a.wav"⟩], [⟨"href", "../b.aiff"⟩], [⟨"href", "c.txt"⟩], [⟨"href", "d.AIF"⟩],
       [⟨"href", "a.wav"⟩]]).Perm
      ["http://theremin.music.uiowa.edu/a.wav", "http://theremin.music.uiowa.edu/b.aiff"] := by
  decide

/-- Claim C1 counterexample: `App.scrape` never inspects the resolved
response status.  A GET on a seed URL resolving to status 404 with a
parseable body succeeds (returning the scraped links) instead of
failing, although 404 is not a 2xx/3xx status. -/
theorem scrape_nonsuccess_status_counterexample :
    300 ≤ 404 ∧
    scrape "http://theremin.music.uiowa.edu/MISflute.html"
      (some "theremin.music.uiowa.edu") (.response 404 (.anchors [])) = .ok [] :=
  ⟨by omega, rfl⟩

/-- Claim C1 amended: scraping a seed URL fails exactly when the GET
itself fails at transport level, the body fails to parse as HTML, or the
seed URL fails to parse; the resolved HTTP status plays no role (the
status is never compared, and the result is the same for every status).
Any error that does occur is propagated to the orchestrator, which
aborts the whole download run. -/
theorem scrape_error_modes (url : String) (hostParse : Option String) (r : GetResult) :
    ((scrape url hostParse r).isOk = true ↔
      ∃ status links host, r = .response status (.anchors links) ∧ hostParse = some host) ∧
    (∀ s1 s2 b, scrape url hostParse (.response s1 b) = scrape url hostParse (.response s2 b)) := by
  constructor
  · cases r with
    | transportError msg => simp [scrape, Except.isOk, Except.toBool]
    | response status body =>
      cases body with
      | malformed => simp [scrape, Except.isOk, Except.toBool]
      | anchors links =>
        cases hostParse with
        | none => simp [scrape, Except.isOk, Except.toBool]
        | some host => simp [scrape, Except.isOk, Except.toBool]
  · intro s1 s2 b
    rfl

/-- Claim C2: for every era and section present in the catalog,
`App.urls` succeeds and returns exactly the seed URLs stored under that
era and section (the stored list itself, which is in particular
set-equal to the catalog entry). -/
theorem urls_present_era_section (E S : String) (secs : Sections) (us : List String)
    (h1 : List.lookup E iowaCatalog = some secs)
    (h2 : List.lookup S secs = some us) :
    urls iowaCatalog E S = .ok us := by
  have hmem1 := lookup_mem h1
  have hE : E = "pre-2012" ∧ secs = pre2012 ∨ E = "post-2012" ∧ secs = post2012 := by
    simpa [iowaCatalog, List.mem_cons, Prod.mk.injEq] using hmem1
  rcases hE with ⟨hEeq, hsecs⟩ | ⟨hEeq, hsecs⟩
  · subst hEeq
    subst hsecs
    have hmem2 := lookup_mem h2
    simp only [pre2012, List.mem_cons, Prod.mk.injEq, List.not_mem_nil, or_false] at hmem2
    rcases hmem2 with ⟨rfl, rfl⟩ | ⟨rfl, rfl⟩ | ⟨rfl, rfl⟩ | ⟨rfl, rfl⟩ | ⟨rfl, rfl⟩ | ⟨rfl, rfl⟩ <;>
      rfl
  · subst hEeq
    subst hsecs
    have hmem2 := lookup_mem h2
    simp only [post2012, List.mem_cons, Prod.mk.injEq, List.not_mem_nil, or_false] at hmem2
    rcases hmem2 with ⟨rfl, rfl⟩ | ⟨rfl, rfl⟩ | ⟨rfl, rfl⟩ | ⟨rfl, rfl⟩ | ⟨rfl, rfl⟩ <;>
      rfl

/-- Witness for C2 at the concrete pair (pre-2012, brass). -/
theorem urls_present_era_section_witness :
    urls iowaCatalog "pre-2012" "brass" = .ok
      ["http://theremin.music.uiowa.edu/MISFrenchhorn.html",
       "http://theremin.music.uiowa.edu/MISBbtrumpet.html",
       "http://theremin.music.uiowa.edu/MIStenortrombone.html",
       "http://theremin.music.uiowa.edu/MISbasstrombone.html",
       "http://theremin.music.uiowa.edu/MIStuba.html"] :=
  urls_present_era_section "pre-2012" "brass" pre2012
    ["http://theremin.music.uiowa.edu/MISFrenchhorn.html",
     "http://theremin.music.uiowa.edu/MISBbtrumpet.html",
     "http://theremin.music.uiowa.edu/MIStenortrombone.html",
     "http://theremin.music.uiowa.edu/MISbasstrombone.html",
     "http://theremin.music.uiowa.edu/MIStuba.html"] rfl rfl

/-- Claim C4: with era `all`, any section argument (also a non-empty
one) is accepted and ignored; the result is the whole catalog
flattened: its members are exactly the seed URLs appearing under some
era and section, and its length is the sum of all section list
lengths. -/
theorem urls_all_union (S : String) :
    urls iowaCatalog "all" S = .ok (catalogAll iowaCatalog) ∧
    (∀ u, u ∈ catalogAll iowaCatalog ↔
      ∃ e secs, (e, secs) ∈ iowaCatalog ∧ ∃ sec us, (sec, us) ∈ secs ∧ u ∈ us) ∧
    (catalogAll iowaCatalog).length =
      ((iowaCatalog.flatMap (fun e => e.2)).map (fun p => p.2.length)).sum := by
  refine ⟨rfl, ?_, by decide⟩
  intro u
  unfold catalogAll
  rw [List.mem_flatMap]
  constructor
  · rintro ⟨e, he, hm⟩
    rw [List.mem_flatMap] at hm
    obtain ⟨p, hp2, hu⟩ := hm
    exact ⟨e.1, e.2, by simpa using he, p.1, p.2, by simpa using hp2, hu⟩
  · rintro ⟨e, secs, he, sec, us, hsec, hu⟩
    refine ⟨(e, secs), he, ?_⟩
    rw [List.mem_flatMap]
    exact ⟨(sec, us), hsec, hu⟩

/-- Claim C5: `App.urls` fails with the `unsupported era` error naming
the era whenever the era is neither `all` nor a catalog key, and with
the `unsupported section` error naming the section whenever the era is
known but the non-empty section is not one of its keys. -/
theorem urls_unsupported_errors (samples : Catalog) (E S : String) :
    (E ≠ "all" → List.lookup E samples = none →
      urls samples E S = .error ("unsupported era: " ++ E)) ∧
    (∀ secs, E ≠ "all" → List.lookup E samples = some secs → 0 < S.length →
      List.lookup S secs = none →
      urls samples E S = .error ("unsupported section: " ++ S)) := by
  constructor
  · intro hE hl
    simp only [urls, if_pos hE, hl]
  · intro secs hE hl hS hl2
    simp only [urls, if_pos hE, hl, if_pos hS, hl2]

/-- Witness for C5 at a bogus era and a bogus section. -/
theorem urls_unsupported_errors_witness :
    urls iowaCatalog "bogus-era" "" = .error "unsupported era: bogus-era" ∧
    urls iowaCatalog "pre-2012" "bogus-section" = .error "unsupported section: bogus-section" :=
  ⟨(urls_unsupported_errors iowaCatalog "bogus-era" "").1 (by decide) rfl,
   (urls_unsupported_errors iowaCatalog "pre-2012" "bogus-section").2 pre2012 (by decide) rfl
     (by decide) rfl⟩

/-- Claim C9: any era/section pair accepted by `NewConfig`'s validation
makes the error branches of `App.urls` unreachable: `App.urls` succeeds
on every configuration `NewConfig` returns without error. -/
theorem newConfig_accepted_urls_ok (samples : Catalog) (era sec : String)
    (h : newConfigValidate samples era sec = .ok ()) :
    ∃ out, urls samples era sec = .ok out := by
  by_cases hE : era ≠ "all"
  · cases hl : List.lookup era samples with
    | none =>
      simp only [newConfigValidate, if_pos hE, hl] at h
      exact absurd h (by simp)
    | some sections =>
      by_cases hS : 0 < sec.length
      · cases hl2 : List.lookup sec sections with
        | none =>
          simp only [newConfigValidate, if_pos hE, hl, if_pos hS, hl2] at h
          exact absurd h (by simp)
        | some us =>
          exact ⟨us, by simp only [urls, if_pos hE, hl, if_pos hS, hl2]⟩
      · exact ⟨sections.flatMap (fun p => p.2), by simp only [urls, if_pos hE, hl, if_neg hS]⟩
  · exact ⟨catalogAll samples, by simp only [urls, if_neg hE]; rfl⟩

/-- Witness for C9 at the default configuration (era `all`, empty
section), which `NewConfig` accepts. -/
theorem newConfig_accepted_urls_ok_witness :
    ∃ out, urls iowaCatalog "all" "" = .ok out :=
  newConfig_accepted_urls_ok iowaCatalog "all" "" rfl

/-- Claim C10: the shipped catalog repeats four seed URLs of the
post-2012 woodwinds section in the post-2012 brass section, so both the
post-2012 selection and the full selection contain repeated seed URLs
(each of the four twice), and neither is duplicate-free. -/
theorem catalog_duplicate_seeds :
    ∃ out alld,
      urls iowaCatalog "post-2012" "" = .ok out ∧
      urls iowaCatalog "all" "" = .ok alld ∧
      out.count "http://theremin.music.uiowa.edu/MIS-Pitches-2012/MISBbBassClarinet2012.html" = 2 ∧
      out.count "http://theremin.music.uiowa.edu/MIS-Pitches-2012/MISBassoon2012.html" = 2 ∧
      out.count "http://theremin.music.uiowa.edu/MIS-Pitches-2012/MISBbSopranoSaxophone2012.html" = 2 ∧
      out.count "http://theremin.music.uiowa.edu/MIS-Pitches-2012/MISEbAltoSaxophone2012.html" = 2 ∧
      ¬ out.Nodup ∧ ¬ alld.Nodup ∧
      (∀ u ∈ ["http://theremin.music.uiowa.edu/MIS-Pitches-2012/MISBbBassClarinet2012.html",
              "http://theremin.music.uiowa.edu/MIS-Pitches-2012/MISBassoon2012.html",
              "http://theremin.music.uiowa.edu/MIS-Pitches-2012/MISBbSopranoSaxophone2012.html",
              "http://theremin.music.uiowa.edu/MIS-Pitches-2012/MISEbAltoSaxophone2012.html"],
        ∃ w b, List.lookup "woodwinds" post2012 = some w ∧
          List.lookup "brass" post2012 = some b ∧ u ∈ w ∧ u ∈ b) := by
  refine ⟨_, _, rfl, rfl, by decide, by decide, by decide, by decide, by decide, by decide, ?_⟩
  intro u hu
  fin_cases hu <;> exact ⟨_, _, rfl, rfl, by decide, by decide⟩

/-- Everything before the first slash (the host, which contains none) is
skipped by the path scan. -/
theorem dropWhile_until_slash (l r : List Char) (h : ¬ '/' ∈ l) :
    List.dropWhile (fun c => c != '/') (l ++ '/' :: r) = '/' :: r := by
  induction l with
  | nil => simp [List.dropWhile_cons]
  | cons a t ih =>
    have ha : a ≠ '/' := fun e => h (by simp [e])
    have ht : ¬ '/' ∈ t := fun e => h (List.mem_cons_of_mem _ e)
    simp only [List.cons_append, List.dropWhile_cons]
    rw [if_pos (by simpa using ha)]
    exact ih ht

/-- The URL path of a link built by the scraper (`http://` + host + `/`
+ relative path) is the slash-prefixed relative path. -/
theorem urlPath_built (host rel : String) (h : ¬ '/' ∈ host.data) :
    urlPath ("http://" ++ host ++ "/" ++ rel) = '/' :: rel.data := by
  unfold urlPath
  have hdata : ("http://" ++ host ++ "/" ++ rel).data =
      "http://".data ++ (host.data ++ '/' :: rel.data) := by
    rw [String.data_append, String.data_append, String.data_append]
    rw [List.append_assoc, List.append_assoc]
    rfl
  rw [hdata]
  rw [show (7 : Nat) = "http://".data.length from rfl]
  rw [List.drop_left]
  exact dropWhile_until_slash host.data rel.data h

/-- Claim C6: the LocalPath of an AudioLink is its URL path with the
leading separator stripped (so `http://host/dir/file.wav` maps to
`dir/file.wav`); it is a function of the URL string (deterministic), and
it is injective on AudioLinks with distinct URL paths. -/
theorem localPath_spec (host rel host2 rel2 : String)
    (h1 : ¬ '/' ∈ host.data) (h2 : ¬ '/' ∈ host2.data) :
    localPath ("http://" ++ host ++ "/" ++ rel) = rel.data ∧
    urlPath ("http://" ++ host ++ "/" ++ rel) =
      '/' :: localPath ("http://" ++ host ++ "/" ++ rel) ∧
    (urlPath ("http://" ++ host ++ "/" ++ rel) ≠ urlPath ("http://" ++ host2 ++ "/" ++ rel2) →
      localPath ("http://" ++ host ++ "/" ++ rel) ≠
        localPath ("http://" ++ host2 ++ "/" ++ rel2)) := by
  have e1 := urlPath_built host rel h1
  have e2 := urlPath_built host2 rel2 h2
  refine ⟨?_, ?_, ?_⟩
  · unfold localPath
    rw [e1]
    rfl
  · unfold localPath
    rw [e1]
    rfl
  · intro hne hle
    apply hne
    unfold localPath at hle
    rw [e1, e2] at hle ⊢
    exact congrArg (fun x => '/' :: x) hle

/-- Witness for C6 at the spec's example URL `http://host/dir/file.wav`
(and a second URL with a different path for the injectivity part). -/
theorem localPath_spec_witness :
    localPath "http://host/dir/file.wav" = "dir/file.wav".data ∧
    urlPath "http://host/dir/file.wav" = '/' :: localPath "http://host/dir/file.wav" ∧
    (urlPath "http://host/dir/file.wav" ≠ urlPath "http://host/other.wav" →
      localPath "http://host/dir/file.wav" ≠ localPath "http://host/other.wav") :=
  localPath_spec "host" "dir/file.wav" "host" "other.wav" (by decide) (by decide)

/-- Claim C7: in every reachable state of an `App.fetch` run: a stored
first error implies the shared context is cancelled (first hard failure
cancels the run, observed by the other tasks at their next handoff
suspension point); any non-panicked state with a live goroutine has an
enabled step (no deadlock); every step strictly decreases the measure
(every run ends); and a non-panicked stuck state has every fetcher and
writer exited (total completion: `g.Wait` returns only after all tasks
finish) with the returned `firstErr` empty exactly when no goroutine
returned an error. -/
theorem fetch_first_error_cancels_completes (items : List ItemSpec) (s : PState)
    (h : FetchReachable items s) :
    (s.firstErr.isSome = true → s.cancelled = true) ∧
    (s.panicked = false → ¬ AllExited s → ∃ t, FetchStep s t) ∧
    (∀ t, FetchStep s t → pmeasure t < pmeasure s) ∧
    (s.panicked = false → (∀ t, ¬ FetchStep s t) →
      AllExited s ∧ (s.firstErr = none ↔ s.fdoneErr = 0 ∧ s.wdoneErr = 0)) := by
  have hinv := fetchInv_reachable h
  obtain ⟨c1, c2, c3, c4, c5, c6, c7⟩ := hinv
  refine ⟨?_, ?_, ?_, ?_⟩
  · intro hs
    rw [c4, hs]
  · intro hp hne
    exact fetch_progress ⟨c1, c2, c3, c4, c5, c6, c7⟩ hp hne
  · intro t ht
    exact fetch_step_measure ht
  · intro hp hstuck
    have hall : AllExited s := by
      by_contra hne
      obtain ⟨t, ht⟩ := fetch_progress ⟨c1, c2, c3, c4, c5, c6, c7⟩ hp hne
      exact hstuck t ht
    refine ⟨hall, ?_, ?_⟩
    · exact c5
    · rintro ⟨hz1, hz2⟩
      cases hfe : s.firstErr with
      | none => rfl
      | some m =>
        have h6 := c6 (by rw [hfe]; rfl)
        omega

/-- Witness for C7 at the initial state of the empty run. -/
theorem fetch_first_error_cancels_completes_witness :
    ((fetchInit []).firstErr.isSome = true → (fetchInit []).cancelled = true) ∧
    ((fetchInit []).panicked = false → ¬ AllExited (fetchInit []) →
      ∃ t, FetchStep (fetchInit []) t) ∧
    (∀ t, FetchStep (fetchInit []) t → pmeasure t < pmeasure (fetchInit [])) ∧
    ((fetchInit []).panicked = false → (∀ t, ¬ FetchStep (fetchInit []) t) →
      AllExited (fetchInit []) ∧
        ((fetchInit []).firstErr = none ↔
          (fetchInit []).fdoneErr = 0 ∧ (fetchInit []).wdoneErr = 0)) :=
  fetch_first_error_cancels_completes [] (fetchInit []) Relation.ReflTransGen.refl

/-- A download whose GET fails at transport level, used as the concrete
input of the C8 witness. -/
def faultItem : ItemSpec :=
  { url := "http://theremin.music.uiowa.edu/sound/a.wav",
    get := .transportError "connection refused",
    write := .success }

/-- Claim C8: a transport-level error from the fetcher's initial GET is
escalated to termination of the whole process, not returned as a
recoverable error: the GET phase of `contentFetcher` maps a transport
error to a panic and never to an error return, and the corresponding
pipeline step moves to a panicked state leaving the errgroup's stored
error (FetchAll's return value) untouched. -/
theorem transport_fault_escalates (s : PState) (it : ItemSpec) (msg : String)
    (hp : s.panicked = false) (hmem : it ∈ s.fstart)
    (hget : it.get = .transportError msg) :
    contentFetcherGet it.url it.get = .panicked msg ∧
    (∀ e, contentFetcherGet it.url it.get ≠ .errorReturn e) ∧
    FetchStep s { s with panicked := true } ∧
    ({ s with panicked := true } : PState).firstErr = s.firstErr := by
  have hph : contentFetcherGet it.url it.get = .panicked msg := by
    rw [hget]
    rfl
  refine ⟨hph, ?_, ?_, rfl⟩
  · intro e he
    rw [hph] at he
    cases he
  · exact FetchStep.fetchGetPanic s it msg hp hmem hph

/-- Witness for C8 at a concrete faulty download in a fresh run. -/
theorem transport_fault_escalates_witness :
    contentFetcherGet faultItem.url faultItem.get = .panicked "connection refused" ∧
    (∀ e, contentFetcherGet faultItem.url faultItem.get ≠ .errorReturn e) ∧
    FetchStep (fetchInit [faultItem]) { fetchInit [faultItem] with panicked := true } ∧
    ({ fetchInit [faultItem] with panicked := true } : PState).firstErr =
      (fetchInit [faultItem]).firstErr :=
  transport_fault_escalates (fetchInit [faultItem]) faultItem "connection refused" rfl
    (by simp [fetchInit]) rfl

end Iowa
